import Mathlib

/-!
Verification of the x402 payment proxy core.

Shallow embedding of the core request-time components of the x402 proxy
(`rate-limiter.ts`, `facilitator.ts`, `crypto.ts`, and the proxy route
handler), together with theorems settling the specification claims.

Conventions:
* JavaScript millisecond timestamps are modelled as `Int` (JS number
  arithmetic on timestamps is exact in the integer range used).
* JavaScript strings are modelled as Lean `String`s (compared by value).
* Database / network effects are modelled by passing the values the
  effectful calls would return as explicit inputs, and collecting the
  rows the handler would write as explicit outputs.
-/

namespace X402

/-! ## Rate limiter (`src/apps/x402-proxy/src/lib/proxy/rate-limiter.ts`)

`checkRateLimit(key, limitPerSecond, windowMs = 1000)` keeps, per key, a
list of arrival timestamps.  We model the per-key state as the timestamp
list and the function as a pure state transformer taking `now` (the value
`Date.now()` would return) explicitly.  The periodic stale-entry cleanup
only deletes whole idle keys and does not affect the per-key result. -/

structure RateLimitResult where
  allowed : Bool
  remaining : Int
  resetAt : Int
  limit : Int
  deriving Repr, DecidableEq

/-- Source line `entry.timestamps = entry.timestamps.filter((ts) => ts > windowStart)`
with `windowStart = now - windowMs`. -/
def survivingTimestamps (timestamps : List Int) (now windowMs : Int) : List Int :=
  timestamps.filter (fun ts => now - windowMs < ts)

/-- Source expression `entry.timestamps[0] || now`: JavaScript `||` treats the number `0`
(and an absent element, i.e. `undefined`) as falsy. -/
def jsHeadOrNow (timestamps : List Int) (now : Int) : Int :=
  match timestamps with
  | [] => now
  | t :: _ => if t = 0 then now else t

/-- The body of `checkRateLimit`, acting on one key's timestamp list.
Returns the new timestamp list and the `RateLimitResult`. -/
def checkRateLimit (timestamps : List Int) (now limitPerSecond windowMs : Int) :
    List Int × RateLimitResult :=
  let surviving := survivingTimestamps timestamps now windowMs
  let currentCount : Int := surviving.length
  let allowed := currentCount < limitPerSecond
  let updated := if allowed then surviving ++ [now] else surviving
  let oldestTimestamp := jsHeadOrNow updated now
  let resetAt := oldestTimestamp + windowMs
  (updated,
   { allowed := allowed
     remaining := max 0 (limitPerSecond - updated.length)
     resetAt := resetAt
     limit := limitPerSecond })

/-- Iterate `checkRateLimit` with the default `windowMs = 1000` over a
sequence of call instants, starting from the given state. -/
def runRateLimit (limitPerSecond : Int) (nows : List Int) (timestamps : List Int) : List Int :=
  match nows with
  | [] => timestamps
  | now :: rest => runRateLimit limitPerSecond rest (checkRateLimit timestamps now limitPerSecond 1000).1

theorem survivingTimestamps_eq (ts : List Int) (now windowMs : Int) :
    survivingTimestamps ts now windowMs = ts.filter (fun t => now < t + windowMs) := by
  unfold survivingTimestamps
  apply List.filter_congr
  intro t _
  simp only [decide_eq_decide]
  omega

theorem surviving_length_le (ts : List Int) (now windowMs : Int) :
    (survivingTimestamps ts now windowMs).length ≤ ts.length :=
  List.length_filter_le _ _

/-- One `checkRateLimit` call never grows the stored window beyond the limit. -/
theorem checkRateLimit_length_le (ts : List Int) (now n w : Int)
    (h : (ts.length : Int) ≤ n) :
    (((checkRateLimit ts now n w).1.length : Int)) ≤ n := by
  unfold checkRateLimit
  simp only
  have hs : (survivingTimestamps ts now w).length ≤ ts.length := surviving_length_le ts now w
  by_cases hc : ((survivingTimestamps ts now w).length : Int) < n
  · simp only [hc, if_pos]
    simp only [List.length_append, List.length_cons, List.length_nil]
    push_cast
    omega
  · simp only [hc, if_neg, not_false_eq_true]
    omega

theorem runRateLimit_length_le (n : Int) (nows : List Int) (ts : List Int)
    (h : (ts.length : Int) ≤ n) :
    ((runRateLimit n nows ts).length : Int) ≤ n := by
  induction nows generalizing ts with
  | nil => exact h
  | cons now rest ih =>
      exact ih _ (checkRateLimit_length_le ts now n 1000 h)

theorem checkRateLimit_fst (ts : List Int) (now n w : Int) :
    (checkRateLimit ts now n w).1 =
      if ((survivingTimestamps ts now w).length : Int) < n
      then survivingTimestamps ts now w ++ [now]
      else survivingTimestamps ts now w := rfl

theorem checkRateLimit_allowed (ts : List Int) (now n w : Int) :
    (checkRateLimit ts now n w).2.allowed =
      decide (((survivingTimestamps ts now w).length : Int) < n) := rfl

theorem checkRateLimit_remaining (ts : List Int) (now n w : Int) :
    (checkRateLimit ts now n w).2.remaining =
      max 0 (n - ((checkRateLimit ts now n w).1.length : Int)) := rfl

theorem checkRateLimit_resetAt (ts : List Int) (now n w : Int) :
    (checkRateLimit ts now n w).2.resetAt =
      jsHeadOrNow (checkRateLimit ts now n w).1 now + w := rfl

/-- Claim C4 (amended): a `checkRateLimit` call drops exactly the timestamps
whose age has reached the window (expiry at exactly `entry + windowMs`),
admits and appends `now` iff the surviving count is below the limit, and
returns `resetAt = oldestSurviving + windowMs` (`now + windowMs` when the
surviving window is empty) — except that a surviving oldest timestamp
equal to `0` is treated as absent (JavaScript `timestamps[0] || now`
falsiness), in which case `resetAt = now + windowMs`. -/
theorem checkRateLimit_spec (ts : List Int) (now n w : Int) :
    survivingTimestamps ts now w = ts.filter (fun t => now < t + w)
    ∧ (((survivingTimestamps ts now w).length : Int) < n →
        (checkRateLimit ts now n w).2.allowed = true
        ∧ (checkRateLimit ts now n w).1 = survivingTimestamps ts now w ++ [now])
    ∧ (¬ ((survivingTimestamps ts now w).length : Int) < n →
        (checkRateLimit ts now n w).2.allowed = false
        ∧ (checkRateLimit ts now n w).1 = survivingTimestamps ts now w)
    ∧ (survivingTimestamps ts now w = [] →
        (checkRateLimit ts now n w).2.resetAt = now + w)
    ∧ (∀ t rest, survivingTimestamps ts now w = t :: rest → t ≠ 0 →
        (checkRateLimit ts now n w).2.resetAt = t + w)
    ∧ (∀ rest, survivingTimestamps ts now w = (0 : Int) :: rest →
        (checkRateLimit ts now n w).2.resetAt = now + w) := by
  refine ⟨survivingTimestamps_eq ts now w, ?_, ?_, ?_, ?_, ?_⟩
  · intro hlt
    unfold checkRateLimit
    simp [hlt]
  · intro hge
    unfold checkRateLimit
    simp [hge]
  · intro hempty
    rw [checkRateLimit_resetAt, checkRateLimit_fst, hempty]
    split
    · simp [jsHeadOrNow, ite_self]
    · simp [jsHeadOrNow]
  · intro t rest hcons ht
    rw [checkRateLimit_resetAt, checkRateLimit_fst, hcons]
    split
    · simp [jsHeadOrNow, ht]
    · simp [jsHeadOrNow, ht]
  · intro rest hcons
    rw [checkRateLimit_resetAt, checkRateLimit_fst, hcons]
    split
    · simp [jsHeadOrNow]
    · simp [jsHeadOrNow]

/-- Witness for `checkRateLimit_spec` at a concrete call: state `[5, 500]`,
`now = 1005`, limit `3`, window `1000`: the entry `5` is expired at exactly
`5 + 1000 = 1005`, the call is allowed, appends `1005`, and resets at
`500 + 1000 = 1500`. -/
theorem checkRateLimit_spec_witness :
    (checkRateLimit [5, 500] 1005 3 1000).2.allowed = true
    ∧ (checkRateLimit [5, 500] 1005 3 1000).1 = [500, 1005]
    ∧ (checkRateLimit [5, 500] 1005 3 1000).2.resetAt = 1500 := by
  obtain ⟨-, h2, -, -, h5, -⟩ := checkRateLimit_spec [5, 500] 1005 3 1000
  have hs : survivingTimestamps [5, 500] 1005 1000 = [500] := by decide
  refine ⟨(h2 (by rw [hs]; decide)).1, ?_, h5 500 [] hs (by decide)⟩
  rw [(h2 (by rw [hs]; decide)).2, hs]
  rfl

/-- Claim C4 counterexample: after a call at time `0` stores the timestamp
`0`, a second call at `now = 500` (window 1000, limit 2) returns
`resetAt = 1500`, not `oldestSurviving + windowMs = 0 + 1000 = 1000`:
the stored timestamp `0` is falsy in `entry.timestamps[0] || now`. -/
theorem checkRateLimit_resetAt_counterexample :
    survivingTimestamps (checkRateLimit [] 0 2 1000).1 500 1000 = [0]
    ∧ (checkRateLimit (checkRateLimit [] 0 2 1000).1 500 2 1000).2.resetAt = 1500
    ∧ (1500 : Int) ≠ 0 + 1000 := by
  decide

/-- Claim C10: for a fixed limit `n > 0`, any sequence of `checkRateLimit`
calls (default window) starting from the empty window leaves at most `n`
stored timestamps; and any call that is denied reports `remaining = 0`. -/
theorem rateLimit_window_bound (n : Int) :
    (0 < n → ∀ nows : List Int, ((runRateLimit n nows []).length : Int) ≤ n)
    ∧ (∀ (ts : List Int) (now w : Int),
        (checkRateLimit ts now n w).2.allowed = false →
        (checkRateLimit ts now n w).2.remaining = 0) := by
  constructor
  · intro hn nows
    exact runRateLimit_length_le n nows [] (by simp; omega)
  · intro ts now w hdenied
    rw [checkRateLimit_allowed] at hdenied
    have hge : ¬ ((survivingTimestamps ts now w).length : Int) < n := by
      simpa using hdenied
    rw [checkRateLimit_remaining, checkRateLimit_fst, if_neg hge]
    have hle : n - ((survivingTimestamps ts now w).length : Int) ≤ 0 := by omega
    exact max_eq_left hle

/-- Witness for `rateLimit_window_bound` at `n = 2` with three calls within
one window: the stored window holds 2 entries, and the denied third call
reports `remaining = 0`. -/
theorem rateLimit_window_bound_witness :
    ((runRateLimit 2 [10, 20, 30] []).length : Int) ≤ 2
    ∧ (checkRateLimit [10, 20] 30 2 1000).2.allowed = false
    ∧ (checkRateLimit [10, 20] 30 2 1000).2.remaining = 0 := by
  have h := rateLimit_window_bound 2
  refine ⟨h.1 (by decide) [10, 20, 30], by decide, h.2 [10, 20] 30 1000 (by decide)⟩

/-! ## IEEE binary64 arithmetic

`usdToUsdc` in `facilitator.ts` computes `Math.floor(usdAmount * 1_000_000)`
on JavaScript numbers, which are IEEE-754 binary64 values.  We model a
finite binary64 value by its exact rational value and model rounding to
nearest (ties to even) for magnitudes in the normal range (the model does
not special-case subnormals or overflow, which no value in any claim
reaches). -/

/-- Halve the mantissa until it is below `2^53` (exponent accounting in
`e`).  Structural fuel recursion; fuel `4200` covers the full binary64
exponent range. -/
def scaleDown : Nat → ℚ → Int → ℚ × Int
  | 0, m, e => (m, e)
  | f + 1, m, e => if (2 : ℚ) ^ (53 : Nat) ≤ m then scaleDown f (m / 2) (e + 1) else (m, e)

/-- Double the mantissa until it reaches `2^52`. -/
def scaleUp : Nat → ℚ → Int → ℚ × Int
  | 0, m, e => (m, e)
  | f + 1, m, e => if m < (2 : ℚ) ^ (52 : Nat) then scaleUp f (m * 2) (e - 1) else (m, e)

/-- Round to the nearest integer, ties to even. -/
def roundHalfEven (m : ℚ) : Int :=
  let fl := Int.floor m
  let frac := m - (fl : ℚ)
  if frac < 1 / 2 then fl
  else if 1 / 2 < frac then fl + 1
  else if fl % 2 = 0 then fl else fl + 1

/-- Round a positive rational to the nearest binary64 value. -/
def roundPos (q : ℚ) : ℚ :=
  let sd := scaleDown 4200 q 0
  let su := scaleUp 4200 sd.1 sd.2
  (roundHalfEven su.1 : ℚ) * (2 : ℚ) ^ su.2

/-- Round a rational to the nearest binary64 value (normal range). -/
def roundB64 (q : ℚ) : ℚ :=
  if q = 0 then 0
  else if 0 < q then roundPos q
  else -roundPos (-q)

/-- JavaScript `x * y` on numbers: exact product, rounded to binary64. -/
def jsMul (x y : ℚ) : ℚ := roundB64 (x * y)

/-- Model of `Math.floor` (exact on binary64 values whose floor is in the safe
integer range, as everywhere in the claims). -/
def jsFloor (x : ℚ) : Int := Int.floor x

/-- Decimal digits of a natural number, most significant first. -/
def natToDecimalAux : Nat → Nat → List Char → List Char
  | 0, _, acc => acc
  | f + 1, n, acc =>
      let d := Nat.digitChar (n % 10)
      if n / 10 = 0 then d :: acc else natToDecimalAux f (n / 10) (d :: acc)

/-- Model of `Number.prototype.toString` for integers in the safe range (JavaScript
prints them in plain decimal notation below `1e21`). -/
def intToString (i : Int) : String :=
  if i < 0 then String.mk ('-' :: natToDecimalAux 30 i.natAbs [])
  else String.mk (natToDecimalAux 30 i.natAbs [])

theorem scaleDown_id (f : Nat) (m : ℚ) (e : Int) (h : m < 2 ^ (53 : Nat)) :
    scaleDown f m e = (m, e) := by
  cases f with
  | zero => rfl
  | succ f => simp [scaleDown, not_le.2 h]

theorem scaleUp_val (f : Nat) (m : ℚ) (e : Int) :
    (scaleUp f m e).1 * (2 : ℚ) ^ (scaleUp f m e).2 = m * (2 : ℚ) ^ e := by
  induction f generalizing m e with
  | zero => rfl
  | succ f ih =>
      by_cases h : m < (2 : ℚ) ^ (52 : Nat)
      · rw [scaleUp, if_pos h, ih]
        rw [show e = e - 1 + 1 by ring, zpow_add_one₀ (two_ne_zero)]
        ring_nf
      · rw [scaleUp, if_neg h]

theorem scaleUp_lt (f : Nat) (m : ℚ) (e : Int) (h : m < 2 ^ (53 : Nat)) :
    (scaleUp f m e).1 < 2 ^ (53 : Nat) := by
  induction f generalizing m e with
  | zero => exact h
  | succ f ih =>
      by_cases hc : m < (2 : ℚ) ^ (52 : Nat)
      · rw [scaleUp, if_pos hc]
        refine ih (m * 2) (e - 1) ?_
        have : (2 : ℚ) ^ (53 : Nat) = 2 ^ (52 : Nat) * 2 := by norm_num
        rw [this]
        exact mul_lt_mul_of_pos_right hc (by norm_num)
      · rw [scaleUp, if_neg hc]
        exact h

theorem scaleUp_nonneg (f : Nat) (m : ℚ) (e : Int) (h : 0 ≤ m) :
    0 ≤ (scaleUp f m e).1 := by
  induction f generalizing m e with
  | zero => exact h
  | succ f ih =>
      by_cases hc : m < (2 : ℚ) ^ (52 : Nat)
      · rw [scaleUp, if_pos hc]
        exact ih (m * 2) (e - 1) (by positivity)
      · rw [scaleUp, if_neg hc]
        exact h

theorem scaleUp_post (f : Nat) (m : ℚ) (e : Int) :
    (2 : ℚ) ^ (52 : Nat) ≤ (scaleUp f m e).1 ∨ (scaleUp f m e).2 = e - f := by
  induction f generalizing m e with
  | zero =>
      by_cases hc : (2 : ℚ) ^ (52 : Nat) ≤ m
      · exact Or.inl hc
      · exact Or.inr (by simp [scaleUp])
  | succ f ih =>
      by_cases hc : m < (2 : ℚ) ^ (52 : Nat)
      · rw [scaleUp, if_pos hc]
        rcases ih (m * 2) (e - 1) with hbig | hexh
        · exact Or.inl hbig
        · refine Or.inr ?_
          rw [hexh]
          push_cast
          ring
      · rw [scaleUp, if_neg hc]
        exact Or.inl (not_lt.1 hc)

theorem roundHalfEven_le (m : ℚ) : (roundHalfEven m : ℚ) ≤ m + 1 / 2 := by
  simp only [roundHalfEven]
  have hfl : (Int.floor m : ℚ) ≤ m := Int.floor_le m
  split
  · linarith
  · split
    · rename_i h1 h2
      push_cast
      linarith
    · split
      · linarith
      · rename_i h1 h2 h3
        push_cast
        linarith [not_lt.1 h1]

theorem roundHalfEven_nonneg (m : ℚ) (h : 0 ≤ m) : 0 ≤ roundHalfEven m := by
  simp only [roundHalfEven]
  have hfl : (0 : Int) ≤ Int.floor m := Int.floor_nonneg.2 h
  split
  · exact hfl
  · split
    · omega
    · split
      · exact hfl
      · omega

/-- For `0 < p` below `1 - 2⁻⁵⁴`, rounding to binary64 stays in `[0, 1)`. -/
theorem roundPos_lt_one (p : ℚ) (h0 : 0 < p) (h1 : p < 1 - (1 / 2) ^ (54 : Nat)) :
    0 ≤ roundPos p ∧ roundPos p < 1 := by
  have hp53 : p < 2 ^ (53 : Nat) := by
    have : (1 : ℚ) - (1 / 2) ^ (54 : Nat) < 2 ^ (53 : Nat) := by norm_num
    linarith
  unfold roundPos
  rw [scaleDown_id 4200 p 0 hp53]
  set m := (scaleUp 4200 p 0).1 with hm
  set e := (scaleUp 4200 p 0).2 with he
  have hval : m * (2 : ℚ) ^ e = p := by
    have := scaleUp_val 4200 p 0
    rw [← hm, ← he] at this
    simpa using this
  have hmlt : m < 2 ^ (53 : Nat) := by
    rw [hm]
    exact scaleUp_lt 4200 p 0 hp53
  have hmnn : 0 ≤ m := by
    rw [hm]
    exact scaleUp_nonneg 4200 p 0 (le_of_lt h0)
  have h2e : (0 : ℚ) < (2 : ℚ) ^ e := zpow_pos (by norm_num) e
  have hmpos : 0 < m := by
    rcases lt_or_eq_of_le hmnn with h | h
    · exact h
    · exfalso
      rw [← h] at hval
      simp at hval
      linarith
  have hrnn : (0 : ℚ) ≤ (roundHalfEven m : ℚ) * (2 : ℚ) ^ e := by
    have := roundHalfEven_nonneg m hmnn
    have : (0 : ℚ) ≤ (roundHalfEven m : ℚ) := by exact_mod_cast this
    positivity
  refine ⟨hrnn, ?_⟩
  have hub : (roundHalfEven m : ℚ) * (2 : ℚ) ^ e ≤ p + (1 / 2) * (2 : ℚ) ^ e := by
    have := roundHalfEven_le m
    calc (roundHalfEven m : ℚ) * (2 : ℚ) ^ e
        ≤ (m + 1 / 2) * (2 : ℚ) ^ e := by
          exact mul_le_mul_of_nonneg_right this (le_of_lt h2e)
      _ = m * (2 : ℚ) ^ e + (1 / 2) * (2 : ℚ) ^ e := by ring
      _ = p + (1 / 2) * (2 : ℚ) ^ e := by rw [hval]
  have hp1 : p < 1 := by
    have hpos54 : (0 : ℚ) < (1 / 2) ^ (54 : Nat) := by positivity
    linarith
  have hee : e ≤ -53 := by
    rcases scaleUp_post 4200 p 0 with hbig | hexh
    · rw [← hm] at hbig
      have hm0 : m ≠ 0 := ne_of_gt hmpos
      have hdiv : (2 : ℚ) ^ e = p / m := by
        rw [eq_div_iff hm0, ← hval]
        ring
      have hlt : p / m < (2 : ℚ) ^ (-52 : Int) := by
        have h252 : (0 : ℚ) < 2 ^ (52 : Nat) := by positivity
        calc p / m ≤ p / 2 ^ (52 : Nat) := by
              gcongr
          _ < 1 / 2 ^ (52 : Nat) := by gcongr
          _ = (2 : ℚ) ^ (-52 : Int) := by
              rw [zpow_neg]
              norm_num
      have h2e52 : (2 : ℚ) ^ e < (2 : ℚ) ^ (-52 : Int) := by
        rw [hdiv]
        exact hlt
      have := (zpow_lt_zpow_iff_right₀ (by norm_num : (1 : ℚ) < 2)).1 h2e52
      omega
    · rw [← he] at hexh
      omega
  have hzle : (2 : ℚ) ^ e ≤ (2 : ℚ) ^ (-53 : Int) :=
    zpow_le_zpow_right₀ (by norm_num) hee
  have hhalf : (1 / 2 : ℚ) * (2 : ℚ) ^ e ≤ (1 / 2) ^ (54 : Nat) := by
    calc (1 / 2 : ℚ) * (2 : ℚ) ^ e
        ≤ (1 / 2) * (2 : ℚ) ^ (-53 : Int) := by
          exact mul_le_mul_of_nonneg_left hzle (by norm_num)
      _ = (1 / 2) ^ (54 : Nat) := by
          rw [zpow_neg]
          norm_num
  calc (roundHalfEven m : ℚ) * (2 : ℚ) ^ e
      ≤ p + (1 / 2) * (2 : ℚ) ^ e := hub
    _ ≤ p + (1 / 2) ^ (54 : Nat) := by linarith
    _ < 1 := by linarith

/- Batteries marks the `Rat` arithmetic operations `@[irreducible]`; to let
concrete rational computations reduce in proofs below, restore default
reducibility locally. -/
attribute [local semireducible] Rat.mul Rat.add Rat.sub Rat.inv Rat.ofScientific

/-! ## `usdToUsdc` (`src/apps/x402-proxy/src/lib/proxy/facilitator.ts`) -/

def USDC_BASE_MAINNET : String := "0x833589fCD6eDb6E08f4c7C32D4f71b54bdA02913"

def USDC_BASE_SEPOLIA : String := "0x036CbD53842c5426634e7929541eC2318f3dCF7e"

/-- The `AssetAmount` shape returned by `usdToUsdc` (the `extra` object is
flattened into its two fields). -/
structure AssetAmount where
  asset : String
  amount : String
  extraName : String
  extraVersion : String
  deriving Repr, DecidableEq

/-- Source function `usdToUsdc(usdAmount, testnet)`: the input is the binary64 value of the
JavaScript number; `amount = Math.floor(usdAmount * 1_000_000).toString()`. -/
def usdToUsdc (usdAmount : ℚ) (testnet : Bool) : AssetAmount :=
  { asset := if testnet then USDC_BASE_SEPOLIA else USDC_BASE_MAINNET
    amount := intToString (jsFloor (jsMul usdAmount 1000000))
    extraName := "USDC"
    extraVersion := "2" }

set_option maxRecDepth 100000 in
/-- Claim C2 counterexample: for `usd = 0.000249` (6-decimal representation
`249`, which fits in 64 bits), the JavaScript engine parses the literal to
the nearest binary64 value and `usdToUsdc` returns `"248"`, not the decimal
string of `floor(0.000249 × 10⁶) = 249`: the conversion is not exact. -/
theorem usdToUsdc_exactness_counterexample :
    (usdToUsdc (roundB64 (249 / 1000000)) true).amount = "248"
    ∧ Int.floor ((249 / 1000000 : ℚ) * 1000000) = 249
    ∧ (usdToUsdc (roundB64 (249 / 1000000)) true).amount ≠ intToString 249 := by
  refine ⟨by decide, by decide, by decide⟩

set_option maxRecDepth 100000 in
/-- Claim C2 (amended): `usdToUsdc(usd, testnet).amount` is the decimal
string of `floor(fl64(usd × 10⁶))` computed in binary64 arithmetic, which
is not exact for every 6-decimal input; the claimed instances hold:
`usdToUsdc(0.01, true).amount = "10000"`,
`usdToUsdc(0.000001, true).amount = "1"`, and any `usd` with
`0 ≤ usd` and `usd × 10⁶ < 1 − 2⁻⁵⁴` (strictly below one atomic unit with
a 2⁻⁵⁴ rounding guard) yields `"0"`. -/
theorem usdToUsdc_amount_spec :
    (usdToUsdc (roundB64 (1 / 100)) true).amount = "10000"
    ∧ (usdToUsdc (roundB64 (1 / 1000000)) true).amount = "1"
    ∧ ∀ usd : ℚ, 0 ≤ usd → usd * 1000000 < 1 - (1 / 2) ^ (54 : Nat) →
        (usdToUsdc usd true).amount = "0" := by
  refine ⟨by decide, by decide, ?_⟩
  intro usd h0 h1
  show intToString (jsFloor (jsMul usd 1000000)) = "0"
  have hp : 0 ≤ usd * 1000000 := by positivity
  rcases eq_or_lt_of_le hp with hp0 | hppos
  · rw [jsMul, roundB64, if_pos hp0.symm]
    decide
  · rw [jsMul, roundB64, if_neg (ne_of_gt hppos), if_pos hppos]
    obtain ⟨hnn, hlt⟩ := roundPos_lt_one (usd * 1000000) hppos h1
    have hfloor : Int.floor (roundPos (usd * 1000000)) = 0 :=
      Int.floor_eq_zero_iff.2 ⟨hnn, hlt⟩
    rw [jsFloor, hfloor]
    decide

set_option maxRecDepth 100000 in
/-- Witness for `usdToUsdc_amount_spec` at `usd = 1/2000000` (half an
atomic unit): the amount is `"0"`. -/
theorem usdToUsdc_amount_spec_witness :
    (0 : ℚ) ≤ 1 / 2000000
    ∧ (1 / 2000000 : ℚ) * 1000000 < 1 - (1 / 2) ^ (54 : Nat)
    ∧ (usdToUsdc (1 / 2000000) true).amount = "0" :=
  ⟨by decide, by decide, usdToUsdc_amount_spec.2.2 (1 / 2000000) (by decide) (by decide)⟩

/-! ## Secret reference resolution (`src/apps/x402-proxy/src/lib/crypto.ts`)

`resolveSecretReferences(template, getSecret)` collects the matches of the
global regex on the template and, for each match whose lookup succeeds,
substitutes via JavaScript `String.prototype.replace` with a plain-string
search pattern: the FIRST occurrence of the matched text in the current
string is replaced, and the replacement string undergoes ECMAScript
`GetSubstitution` expansion of the sequences beginning with the dollar
character.  Strings are modelled as `List Char`; `lookup` models
`getSecret` composed with `decrypt`, returning the plaintext (AEAD
decryption itself is outside this model). -/

/-- The fixed part of the pattern: two opening braces and the word
SECRET followed by a colon. -/
def secretHeader : List Char :=
  '{' :: '{' :: 'S' :: 'E' :: 'C' :: 'R' :: 'E' :: 'T' :: ':' :: []

/-- The full placeholder text for a name: header, name, two closing braces. -/
def secretToken (name : List Char) : List Char :=
  secretHeader ++ name ++ ('}' :: '}' :: [])

/-- One attempt of the regex at the start of `s`: matches the header, then a
maximal nonempty run of characters other than the closing brace, then two
closing braces; returns the captured name and the remainder of `s`. -/
def matchAt (s : List Char) : Option (List Char × List Char) :=
  if secretHeader.isPrefixOf s then
    let rest := s.drop secretHeader.length
    let run := rest.takeWhile (fun c => c ≠ '}')
    let after := rest.dropWhile (fun c => c ≠ '}')
    if run = [] then none
    else
      match after with
      | '}' :: '}' :: rem => some (run, rem)
      | _ => none
  else none

/-- All matches of the global regex, leftmost first (the scan advances one
character when no match starts at the current position, and past the whole
match otherwise).  Fuel-based; `s.length` fuel suffices. -/
def scanSecretRefs : Nat → List Char → List (List Char)
  | 0, _ => []
  | f + 1, s =>
      match s with
      | [] => []
      | _ :: rest =>
          match matchAt s with
          | some (name, rem) => name :: scanSecretRefs f rem
          | none => scanSecretRefs f rest

/-- Split `s` around the first occurrence of `pat`:
`s = before ++ pat ++ after`. -/
def splitAtFirst (pat : List Char) : List Char → Option (List Char × List Char)
  | [] => if pat.isPrefixOf ([] : List Char) then some ([], []) else none
  | c :: rest =>
      if pat.isPrefixOf (c :: rest) then some ([], (c :: rest).drop pat.length)
      else (splitAtFirst pat rest).map (fun p => (c :: p.1, p.2))

/-- ECMAScript `GetSubstitution` for a plain-string search (no capture
groups): dollar-dollar emits a dollar, dollar-ampersand the matched text,
dollar-backquote the text before the match, dollar-quote the text after
it; anything else is literal.  `Char.ofNat 96` is the backquote and
`Char.ofNat 39` the single quote. -/
def getSubstitution (matched before after : List Char) : List Char → List Char
  | [] => []
  | c :: r =>
      if c = '$' then
        match r with
        | [] => '$' :: []
        | c2 :: r2 =>
            if c2 = '$' then '$' :: getSubstitution matched before after r2
            else if c2 = '&' then matched ++ getSubstitution matched before after r2
            else if c2 = Char.ofNat 96 then before ++ getSubstitution matched before after r2
            else if c2 = Char.ofNat 39 then after ++ getSubstitution matched before after r2
            else '$' :: c2 :: getSubstitution matched before after r2
      else c :: getSubstitution matched before after r

/-- Source expression `result.replace(fullMatch, decryptedValue)` with a string search
pattern: replace the first occurrence only. -/
def jsReplaceFirst (s pat repl : List Char) : List Char :=
  match splitAtFirst pat s with
  | none => s
  | some (b, a) => b ++ getSubstitution pat b a repl ++ a

/-- Source function `resolveSecretReferences`: fold the matches over the template. (The
source's `if (!secretName) continue` guard is dead: a captured name is
always nonempty.) -/
def resolveSecretReferences (template : List Char)
    (lookup : List Char → Option (List Char)) : List Char :=
  (scanSecretRefs template.length template).foldl
    (fun result name =>
      match lookup name with
      | some v => jsReplaceFirst result (secretToken name) v
      | none => result)
    template

theorem getSubstitution_of_not_dollar (m b a : List Char) (r : List Char)
    (h : '$' ∉ r) : getSubstitution m b a r = r := by
  induction r with
  | nil => rfl
  | cons c r ih =>
      have hc : c ≠ '$' := fun hceq => h (hceq ▸ List.mem_cons_self c r)
      have hr : '$' ∉ r := fun hmem => h (List.mem_cons_of_mem c hmem)
      have hc2 : ¬ (c = '$') := fun hceq => hc hceq
      rw [getSubstitution.eq_def]
      dsimp only
      rw [if_neg hc2, ih hr]

/-- A successful `matchAt` decomposes the input as a well-formed
placeholder followed by the remainder. -/
theorem matchAt_eq_some (s n rem : List Char) (h : matchAt s = some (n, rem)) :
    s = secretToken n ++ rem ∧ n ≠ [] ∧ ∀ c ∈ n, c ≠ '}' := by
  unfold matchAt at h
  split at h
  · rename_i hpre
    rw [List.isPrefixOf_iff_prefix] at hpre
    obtain ⟨t, ht⟩ := hpre
    have hdrop : s.drop secretHeader.length = t := by
      rw [← ht, List.drop_left]
    rw [hdrop] at h
    dsimp only at h
    split at h
    · exact absurd h (by simp)
    · rename_i hrun
      split at h
      · rename_i rem2 heq
        have hinj := Option.some.inj h
        have hn : t.takeWhile (fun c => c ≠ '}') = n := congrArg Prod.fst hinj
        have hrem : rem2 = rem := congrArg Prod.snd hinj
        refine ⟨?_, ?_, ?_⟩
        · rw [← ht, secretToken]
          have hsplit : t.takeWhile (fun c => c ≠ '}') ++ t.dropWhile (fun c => c ≠ '}') = t :=
            List.takeWhile_append_dropWhile (fun c => decide (c ≠ '}')) t
          rw [← hsplit, hn, heq, hrem]
          simp
        · rw [← hn]
          exact hrun
        · intro c hc
          rw [← hn] at hc
          have := List.mem_takeWhile_imp hc
          simpa using this
      · exact absurd h (by simp)
  · exact absurd h (by simp)

/-- A string containing no well-formed placeholder yields no matches. -/
theorem scanSecretRefs_nil (f : Nat) (s : List Char)
    (h : ∀ u name v, name ≠ [] → (∀ c ∈ name, c ≠ '}') →
        s ≠ u ++ secretToken name ++ v) :
    scanSecretRefs f s = [] := by
  induction f generalizing s with
  | zero => rfl
  | succ f ih =>
      cases s with
      | nil => rfl
      | cons c rest =>
          rw [scanSecretRefs]
          cases hm : matchAt (c :: rest) with
          | some p =>
              exfalso
              obtain ⟨hdec, hne, hchar⟩ := matchAt_eq_some (c :: rest) p.1 p.2 (by rw [hm])
              exact h [] p.1 p.2 hne hchar (by simpa using hdec)
          | none =>
              simp only
              refine ih rest (fun u name v hne hchar hcontra => ?_)
              exact h (c :: u) name v hne hchar (by rw [hcontra]; rfl)

/-- Folding over names none of which resolve leaves the string unchanged. -/
theorem resolve_foldl_none (lookup : List Char → Option (List Char))
    (names : List (List Char)) (init : List Char)
    (h : ∀ n ∈ names, lookup n = none) :
    names.foldl
      (fun result name =>
        match lookup name with
        | some v => jsReplaceFirst result (secretToken name) v
        | none => result)
      init = init := by
  induction names generalizing init with
  | nil => rfl
  | cons n ns ih =>
      rw [List.foldl_cons]
      have hn : lookup n = none := h n (List.mem_cons_self n ns)
      rw [hn]
      exact ih init (fun m hm => h m (List.mem_cons_of_mem n hm))

/-- Claim C5 (amended): `resolveSecretReferences` substitutes each scanned
match by replacing the first occurrence of its placeholder text in the
evolving string (JavaScript `replace` semantics), so simultaneous
replacement of every occurrence is not guaranteed in general; the claim
holds in these forms: (1) a template containing no `SECRET` placeholder is
returned unchanged for every lookup; (2) occurrences whose lookup returns
`none` are left intact and never abort resolution — if every scanned name
fails to resolve the template is returned unchanged; (3) when the template
contains exactly one scanned occurrence, its lookup succeeds, and the
decrypted value contains no dollar character, that occurrence is replaced
by the decrypted value. -/
theorem resolveSecretReferences_spec :
    (∀ template (lookup : List Char → Option (List Char)),
       (∀ u name v, name ≠ [] → (∀ c ∈ name, c ≠ '}') →
           template ≠ u ++ secretToken name ++ v) →
       resolveSecretReferences template lookup = template)
    ∧ (∀ template (lookup : List Char → Option (List Char)),
       (∀ n ∈ scanSecretRefs template.length template, lookup n = none) →
       resolveSecretReferences template lookup = template)
    ∧ (∀ t n val u v (lookup : List Char → Option (List Char)),
       scanSecretRefs t.length t = [n] →
       lookup n = some val →
       splitAtFirst (secretToken n) t = some (u, v) →
       '$' ∉ val →
       resolveSecretReferences t lookup = u ++ val ++ v) := by
  refine ⟨?_, ?_, ?_⟩
  · intro template lookup h
    unfold resolveSecretReferences
    rw [scanSecretRefs_nil template.length template h]
    rfl
  · intro template lookup h
    exact resolve_foldl_none lookup _ template h
  · intro t n val u v lookup hscan hL hsplit hdollar
    unfold resolveSecretReferences
    rw [hscan, List.foldl_cons, hL, List.foldl_nil]
    unfold jsReplaceFirst
    rw [hsplit]
    dsimp only
    rw [getSubstitution_of_not_dollar _ _ _ val hdollar]

/-- Witness for `resolveSecretReferences_spec`: a plain template is
unchanged; a template whose only secret is unknown is unchanged; a
template that is exactly one placeholder with a known secret resolves to
the plaintext. -/
theorem resolveSecretReferences_spec_witness :
    resolveSecretReferences ('k' :: 'e' :: 'y' :: []) (fun _ => none)
      = 'k' :: 'e' :: 'y' :: []
    ∧ resolveSecretReferences (secretToken ('A' :: [])) (fun _ => none)
      = secretToken ('A' :: [])
    ∧ resolveSecretReferences (secretToken ('K' :: []))
        (fun n => if n = 'K' :: [] then some ('s' :: 'k' :: []) else none)
      = 's' :: 'k' :: [] := by
  refine ⟨?_, ?_, ?_⟩
  · refine resolveSecretReferences_spec.1 _ _ (fun u name v hne hchar hcontra => ?_)
    have hlen : ('k' :: 'e' :: 'y' :: []).length = (u ++ secretToken name ++ v).length := by
      rw [hcontra]
    simp [secretToken, secretHeader] at hlen
    omega
  · exact resolveSecretReferences_spec.2.1 _ _ (fun n _ => rfl)
  · have h := resolveSecretReferences_spec.2.2 (secretToken ('K' :: [])) ('K' :: [])
      ('s' :: 'k' :: []) [] []
      (fun n => if n = 'K' :: [] then some ('s' :: 'k' :: []) else none)
      (by decide) (by decide) (by decide) (by decide)
    simpa using h

/-- Claim C5 counterexample: with `lookup A = "{{SECRET:B}}"` (as a
plaintext secret value) and `lookup B = "v"`, the template
`"{{SECRET:A}} {{SECRET:B}}"` resolves to `"v {{SECRET:B}}"`: the second
step replaced the FIRST occurrence of the `B` placeholder — the text just
substituted for `A` — so the original `B` occurrence, whose lookup
succeeds, is NOT replaced by its decrypted value (the claim would require
`"{{SECRET:B}} v"`). -/
theorem resolveSecretReferences_counterexample :
    resolveSecretReferences
        (secretToken ('A' :: []) ++ ' ' :: secretToken ('B' :: []))
        (fun n =>
          if n = 'A' :: [] then some (secretToken ('B' :: []))
          else if n = 'B' :: [] then some ('v' :: []) else none)
      = 'v' :: ' ' :: secretToken ('B' :: [])
    ∧ 'v' :: ' ' :: secretToken ('B' :: [])
      ≠ secretToken ('B' :: []) ++ ' ' :: 'v' :: [] := by
  refine ⟨by decide, by decide⟩

/-! ## Header access and JavaScript truthiness on strings -/

/-- Lowercase an ASCII character (header names are ASCII). -/
def lcChar (c : Char) : Char :=
  if 'A' ≤ c ∧ c ≤ 'Z' then Char.ofNat (c.toNat + 32) else c

/-- Lowercase a string (header names are case-insensitive). -/
def lcStr (s : String) : String := String.mk (s.data.map lcChar)

/-- Model of `headers.get(name)`: case-insensitive lookup; header lists store
lowercase names, as JavaScript `Headers` iteration yields them. -/
def headerGet (hs : List (String × String)) (k : String) : Option String :=
  (hs.find? (fun p => p.1 = lcStr k)).map (fun p => p.2)

/-- Model of `headers.set(name, value)`: replace the value in place if the
(lowercased) name exists, else append. -/
def headerSet (hs : List (String × String)) (k v : String) : List (String × String) :=
  if hs.any (fun p => p.1 = lcStr k) then
    hs.map (fun p => if p.1 = lcStr k then (p.1, v) else p)
  else hs ++ [(lcStr k, v)]

/-- JavaScript `a || b` on nullable strings: `null` and `""` are falsy. -/
def jsOrStr (a b : Option String) : Option String :=
  if a = none ∨ a = some "" then b else a

/-- JavaScript truthiness of a nullable string. -/
def jsTruthy (a : Option String) : Bool := ¬ (a = none ∨ a = some "")

/-! ## `parsePaymentSignature` (`facilitator.ts`)

`decodePaymentSignatureHeader` comes from the `@x402/core` SDK (not part
of this repository); it is modelled as an oracle `decode` returning
`none` when it would throw (the `try/catch` maps any throw to `null`). -/

/-- Source function `parsePaymentSignature(request)`. -/
def parsePaymentSignature {α : Type} (headers : List (String × String))
    (decode : String → Option α) : Option α :=
  let signatureFromX := headerGet headers "X-PAYMENT-SIGNATURE"
  let signatureFromPlain := headerGet headers "PAYMENT-SIGNATURE"
  let signature := jsOrStr signatureFromX signatureFromPlain
  match signature with
  | none => none
  | some s => if s = "" then none else decode s

/-- Claim C9: `parsePaymentSignature` returns `null` when neither
`X-PAYMENT-SIGNATURE` nor `PAYMENT-SIGNATURE` is present; returns `null`
whenever the selected header value fails to decode as base64 JSON (the
decoder throw is caught); and, being a total function of the headers and
the decoder outcome, it never raises to the caller. -/
theorem parsePaymentSignature_spec {α : Type} (headers : List (String × String))
    (decode : String → Option α) :
    (headerGet headers "X-PAYMENT-SIGNATURE" = none →
     headerGet headers "PAYMENT-SIGNATURE" = none →
     parsePaymentSignature headers decode = none)
    ∧ (∀ s, jsOrStr (headerGet headers "X-PAYMENT-SIGNATURE")
          (headerGet headers "PAYMENT-SIGNATURE") = some s →
        decode s = none →
        parsePaymentSignature headers decode = none) := by
  constructor
  · intro hx hp
    unfold parsePaymentSignature
    rw [hx, hp]
    rfl
  · intro s hsel hdec
    unfold parsePaymentSignature
    dsimp only
    rw [hsel]
    dsimp only
    by_cases hempty : s = ""
    · rw [if_pos hempty]
    · rw [if_neg hempty, hdec]

/-- Witness for `parsePaymentSignature_spec`: no headers yields `none`,
and a present header whose decoding fails yields `none`. -/
theorem parsePaymentSignature_spec_witness :
    parsePaymentSignature ([] : List (String × String))
        (fun _ => some (0 : Int)) = none
    ∧ parsePaymentSignature [("x-payment-signature", "notb64")]
        (fun _ => (none : Option Int)) = none := by
  constructor
  · exact (parsePaymentSignature_spec [] (fun _ => some (0 : Int))).1 (by decide) (by decide)
  · exact (parsePaymentSignature_spec [("x-payment-signature", "notb64")]
      (fun _ => (none : Option Int))).2 "notb64" (by decide) rfl

/-! ## `generatePaymentRequiredResponse` (`facilitator.ts`) -/

structure ResourceInfo where
  url : String
  description : Option String
  mimeType : String
  deriving Repr, DecidableEq

structure AcceptsEntry where
  scheme : String
  network : String
  amount : String
  payTo : String
  maxTimeoutSeconds : Int
  asset : String
  extraName : String
  extraVersion : String
  deriving Repr, DecidableEq

structure PaymentRequiredResponse where
  x402Version : Int
  resource : ResourceInfo
  accepts : List AcceptsEntry
  deriving Repr, DecidableEq

/-- Source function `generatePaymentRequiredResponse(config)`. -/
def generatePaymentRequiredResponse (url : String) (description : Option String)
    (priceUsd : ℚ) (payTo : String) (testnet : Bool) : PaymentRequiredResponse :=
  let network := if testnet then "eip155:84532" else "eip155:8453"
  let usdcAsset := usdToUsdc priceUsd testnet
  { x402Version := 2
    resource := { url := url, description := description, mimeType := "application/json" }
    accepts := [{ scheme := "exact"
                  network := network
                  amount := usdcAsset.amount
                  payTo := payTo
                  maxTimeoutSeconds := 300
                  asset := usdcAsset.asset
                  extraName := usdcAsset.extraName
                  extraVersion := usdcAsset.extraVersion }] }

set_option maxRecDepth 100000 in
/-- Claim C7: the 402 document has `x402Version 2`, resource
`{url, description, mimeType "application/json"}`, and exactly one
`accepts` entry: scheme `exact`, network `eip155:84532` on testnet and
`eip155:8453` otherwise, amount from `usdToUsdc`, the given `payTo`,
`maxTimeoutSeconds 300`, the configured testnet/mainnet USDC address, and
extra `{name "USDC", version "2"}`; at a one-cent testnet endpoint the
entry is exactly the S2 fixture. -/
theorem generatePaymentRequiredResponse_spec (url : String)
    (description : Option String) (priceUsd : ℚ) (payTo : String) (testnet : Bool) :
    (generatePaymentRequiredResponse url description priceUsd payTo testnet).x402Version = 2
    ∧ (generatePaymentRequiredResponse url description priceUsd payTo testnet).resource
        = { url := url, description := description, mimeType := "application/json" }
    ∧ (generatePaymentRequiredResponse url description priceUsd payTo testnet).accepts
        = [{ scheme := "exact"
             network := if testnet then "eip155:84532" else "eip155:8453"
             amount := (usdToUsdc priceUsd testnet).amount
             payTo := payTo
             maxTimeoutSeconds := 300
             asset := if testnet then USDC_BASE_SEPOLIA else USDC_BASE_MAINNET
             extraName := "USDC"
             extraVersion := "2" }]
    ∧ (generatePaymentRequiredResponse "https://x/alice/weather" none
          (roundB64 (1 / 100)) "0xA" true).accepts
        = [{ scheme := "exact"
             network := "eip155:84532"
             amount := "10000"
             payTo := "0xA"
             maxTimeoutSeconds := 300
             asset := "0x036CbD53842c5426634e7929541eC2318f3dCF7e"
             extraName := "USDC"
             extraVersion := "2" }] := by
  refine ⟨rfl, rfl, ?_, by decide⟩
  cases testnet <;> rfl

/-! ## Upstream URL assembly (`buildTargetUrl` in the proxy route handler)

`URLSearchParams` serialization uses `application/x-www-form-urlencoded`:
alphanumerics and `*-._` are kept, a space becomes a plus, anything else
a percent escape (modelled for the ASCII range used here). -/

def hexDigit (n : Nat) : Char :=
  if n < 10 then Char.ofNat (48 + n) else Char.ofNat (55 + n)

def formUrlEncodeChar (c : Char) : List Char :=
  if ('0' ≤ c ∧ c ≤ '9') ∨ ('A' ≤ c ∧ c ≤ 'Z') ∨ ('a' ≤ c ∧ c ≤ 'z')
      ∨ c = '*' ∨ c = '-' ∨ c = '.' ∨ c = '_' then [c]
  else if c = ' ' then ['+']
  else '%' :: hexDigit (c.toNat / 16) :: hexDigit (c.toNat % 16) :: []

def formUrlEncode (s : String) : String :=
  String.mk (s.data.map formUrlEncodeChar).flatten

def serializeSearchParams (ps : List (String × String)) : String :=
  String.intercalate "&" (ps.map (fun p => formUrlEncode p.1 ++ "=" ++ formUrlEncode p.2))

/-- Model of `URLSearchParams.set(k, v)`: overwrite the first entry named `k`,
remove any further ones, or append when absent (names case-sensitive). -/
def searchParamsSet : List (String × String) → String → String → List (String × String)
  | [], k, v => [(k, v)]
  | p :: rest, k, v =>
      if p.1 = k then (k, v) :: rest.filter (fun q => q.1 ≠ k)
      else p :: searchParamsSet rest k v

/-- The `auth_type` enum. -/
inductive AuthType
  | noAuth
  | bearer
  | apiKeyHeader
  | apiKeyQuery
  | basicAuth
  | customHeaders
  deriving Repr, DecidableEq

/-- The `auth_config` JSON object (string fields; absent keys are `none`).
`headers` carries the custom-headers map entries in order. -/
structure AuthConfig where
  token : Option String
  headerName : Option String
  headerValue : Option String
  username : Option String
  password : Option String
  queryParam : Option String
  queryValue : Option String
  headers : List (String × String)
  deriving Repr, DecidableEq

/-- Source function `buildTargetUrl(baseUrl, pathSegments, searchParams, endpoint)`:
strip one trailing slash, append the path segments after the endpoint
slug, inject the query-key pair verbatim for `api_key_query`, then append
the serialized query string. -/
def buildTargetUrl (baseUrl : String) (pathSegments : List String)
    (searchParams : List (String × String)) (authType : AuthType)
    (authConfig : Option AuthConfig) : String :=
  let url := match baseUrl.data.getLast? with
    | some '/' => String.mk baseUrl.data.dropLast
    | _ => baseUrl
  let additionalPath := String.intercalate "/" (pathSegments.drop 1)
  let url := if additionalPath ≠ "" then url ++ "/" ++ additionalPath else url
  let params :=
    if authType = AuthType.apiKeyQuery then
      match authConfig with
      | some config =>
          if jsTruthy config.queryParam && jsTruthy config.queryValue then
            searchParamsSet searchParams (config.queryParam.getD "") (config.queryValue.getD "")
          else searchParams
      | none => searchParams
    else searchParams
  let queryString := serializeSearchParams params
  if queryString ≠ "" then url ++ "?" ++ queryString else url

/-! ## Base64 and the settlement-response encoding -/

def base64Table : List Char :=
  "ABCDEFGHIJKLMNOPQRSTUVWXYZabcdefghijklmnopqrstuvwxyz0123456789+/".data

def base64Digit (n : Nat) : Char := base64Table.getD n '?'

def base64Encode : List Nat → List Char
  | [] => []
  | b1 :: [] =>
      base64Digit (b1 / 4) :: base64Digit (b1 % 4 * 16) :: '=' :: '=' :: []
  | b1 :: b2 :: [] =>
      base64Digit (b1 / 4) :: base64Digit (b1 % 4 * 16 + b2 / 16)
        :: base64Digit (b2 % 16 * 4) :: '=' :: []
  | b1 :: b2 :: b3 :: rest =>
      base64Digit (b1 / 4) :: base64Digit (b1 % 4 * 16 + b2 / 16)
        :: base64Digit (b2 % 16 * 4 + b3 / 64) :: base64Digit (b3 % 64)
        :: base64Encode rest

/-- Model of `btoa` on a latin-1 string. -/
def btoa (s : String) : String :=
  String.mk (base64Encode (s.data.map Char.toNat))

/-- The result shape returned by `settlePayment`. -/
structure SettleOutcome where
  success : Bool
  txHash : Option String
  error : Option String
  chainId : Option Int
  network : Option String
  deriving Repr, DecidableEq

def jsonEscapeChar (c : Char) : List Char :=
  if c = '"' then '\\' :: '"' :: []
  else if c = '\\' then '\\' :: '\\' :: []
  else [c]

def jsonStr (s : String) : String :=
  String.mk ('"' :: (s.data.map jsonEscapeChar).flatten ++ '"' :: [])

def jsObj (inner : String) : String :=
  String.mk ('{' :: inner.data ++ '}' :: [])

/-- Model of `JSON.stringify(settleResult)` for the two shapes `settlePayment`
returns (keys in construction order; `undefined` members are omitted). -/
def settleResultJson (st : SettleOutcome) : String :=
  if st.success then
    jsObj (String.intercalate ","
      ((jsonStr "success" ++ ":true") ::
        ((match st.txHash with
          | some t => [jsonStr "txHash" ++ ":" ++ jsonStr t]
          | none => []) ++
         (match st.chainId with
          | some c => [jsonStr "chainId" ++ ":" ++ intToString c]
          | none => []) ++
         (match st.network with
          | some n => [jsonStr "network" ++ ":" ++ jsonStr n]
          | none => []))))
  else
    jsObj (String.intercalate ","
      ((jsonStr "success" ++ ":false") ::
        (match st.error with
         | some e => [jsonStr "error" ++ ":" ++ jsonStr e]
         | none => [])))

/-! ## Auth header assembly (`buildAuthHeaders` in the proxy route handler) -/

/-- Resolve secret references in a string value (the source passes every
auth-config string through `resolveSecretReferences`). -/
def resolveStr (s : String) (lookup : List Char → Option (List Char)) : String :=
  String.mk (resolveSecretReferences s.data lookup)

/-- Source function `buildAuthHeaders(endpoint, userId)`: dispatch on the auth kind.  The
switch has no `api_key_query` case — that kind contributes no headers and
its config values are never resolved anywhere. -/
def buildAuthHeaders (authType : AuthType) (authConfig : Option AuthConfig)
    (lookup : List Char → Option (List Char)) : List (String × String) :=
  match authConfig with
  | none => []
  | some config =>
      match authType with
      | AuthType.noAuth => []
      | AuthType.bearer =>
          if jsTruthy config.token then
            [("Authorization", "Bearer " ++ resolveStr (config.token.getD "") lookup)]
          else []
      | AuthType.apiKeyHeader =>
          if jsTruthy config.headerName && jsTruthy config.headerValue then
            [(config.headerName.getD "", resolveStr (config.headerValue.getD "") lookup)]
          else []
      | AuthType.basicAuth =>
          if jsTruthy config.username && jsTruthy config.password then
            [("Authorization", "Basic " ++
              btoa (resolveStr (config.username.getD "") lookup ++ ":" ++
                resolveStr (config.password.getD "") lookup))]
          else []
      | AuthType.customHeaders =>
          config.headers.map (fun p => (p.1, resolveStr p.2 lookup))
      | AuthType.apiKeyQuery => []

/-- The query-key auth config used to exercise claim C1: a placeholder
value that a secret store resolves to `sk-123`. -/
def authConfigC1 : AuthConfig :=
  { token := none, headerName := none, headerValue := none, username := none
    password := none, queryParam := some "api_key"
    queryValue := some (String.mk (secretToken ('K' :: 'E' :: 'Y' :: [])))
    headers := [] }

def lookupC1 : List Char → Option (List Char) :=
  fun n => if n = 'K' :: 'E' :: 'Y' :: [] then
    some ('s' :: 'k' :: '-' :: '1' :: '2' :: '3' :: []) else none

/-- Claim C1 (code divergence): with auth kind query-key and
`queryValue = "{{SECRET:KEY}}"`, the upstream URL carries the raw
placeholder (percent-encoded by the query serializer), not the resolved
secret: `buildTargetUrl` sets `config.queryValue` without passing it
through `resolveSecretReferences`, `buildAuthHeaders` has no query-key
case, and resolving the same value would give `sk-123`. -/
theorem buildTargetUrl_query_key_unresolved :
    buildTargetUrl "https://api.example.com" ["weather"] []
        AuthType.apiKeyQuery (some authConfigC1)
      = "https://api.example.com?api_key=%7B%7BSECRET%3AKEY%7D%7D"
    ∧ buildAuthHeaders AuthType.apiKeyQuery (some authConfigC1) lookupC1 = []
    ∧ resolveStr (String.mk (secretToken ('K' :: 'E' :: 'Y' :: []))) lookupC1 = "sk-123"
    ∧ buildTargetUrl "https://api.example.com" ["weather"] []
        AuthType.apiKeyQuery (some authConfigC1)
      ≠ "https://api.example.com?api_key=sk-123" := by
  refine ⟨by decide, by decide, by decide, by decide⟩

/-! ## The proxy pipeline (`handleRequest` in the route handler)

Database reads, the facilitator RPCs, and the upstream fetch are modelled
as oracle values carried by `ProxyEnv` (what the awaited calls return);
the rows the handler writes are collected in the result.  Audit writes
are modelled as succeeding (the source catches and ignores their
errors). -/

/-- The payload fields the route handler inspects
(`extractPayerAddressFromPayload` looks at `payload.from` and
`payload.authorization.from` when they are strings). -/
structure PaymentPayloadModel where
  innerFrom : Option String
  innerAuthFrom : Option String
  deriving Repr, DecidableEq

def extractPayerAddressFromPayload (p : PaymentPayloadModel) : Option String :=
  match p.innerFrom with
  | some s => some s
  | none => p.innerAuthFrom

structure UserRow where
  id : String
  slug : String
  defaultPayTo : Option String
  deriving Repr, DecidableEq

/-- The endpoint row fields the handler reads.  `paywallAmount` is the
binary64 value of `Number(endpoint.paywallAmount)`. -/
structure EndpointRow where
  id : String
  slug : String
  name : String
  description : Option String
  targetUrl : String
  authType : AuthType
  authConfig : Option AuthConfig
  paywallAmount : ℚ
  paywallPayTo : Option String
  paywallTestnet : Bool
  customHtml : Option String
  isActive : Bool
  rateLimitPerSec : Int
  deriving Repr, DecidableEq

structure VerifyOutcome where
  valid : Bool
  invalidReason : Option String
  payerAddress : Option String
  chainId : Option Int
  deriving Repr, DecidableEq

structure UpstreamResponse where
  status : Int
  statusText : String
  headers : List (String × String)
  deriving Repr, DecidableEq

structure LogRow where
  endpointId : String
  userId : String
  paymentId : Option String
  responseStatus : Int
  isBrowser : Bool
  paid : Bool
  rateLimited : Bool
  deriving Repr, DecidableEq

structure PaymentRow where
  id : String
  endpointId : String
  userId : String
  payerAddress : String
  status : String
  txHash : Option String
  errorMessage : Option String
  deriving Repr, DecidableEq

structure ProxyRequest where
  method : String
  userSlug : String
  path : List String
  headers : List (String × String)
  searchParams : List (String × String)
  deriving Repr, DecidableEq

structure ProxyEnv where
  user : Option UserRow
  endpoint : Option EndpointRow
  rateLimitState : List Int
  now : Int
  decode : String → Option PaymentPayloadModel
  verify : VerifyOutcome
  fetchResult : Option UpstreamResponse
  fetchErrorMessage : String
  settle : SettleOutcome
  secretLookup : List Char → Option (List Char)

structure ProxyResult where
  status : Int
  statusText : String
  headers : List (String × String)
  logs : List LogRow
  payments : List PaymentRow
  deriving Repr, DecidableEq

/-- Source function `isBrowserRequest(request)`: `Accept` contains `text/html`, or the
user agent matches one of the browser patterns case-insensitively. -/
def strContainsSub (s pat : String) : Bool := (splitAtFirst pat.data s.data).isSome

def lowerStr (s : String) : String := String.mk (s.data.map lcChar)

def isBrowserRequest (headers : List (String × String)) : Bool :=
  let accept := (headerGet headers "Accept").getD ""
  let userAgent := (headerGet headers "User-Agent").getD ""
  strContainsSub accept "text/html" ||
    (["mozilla", "chrome", "safari", "firefox", "edge"].any
      (fun p => strContainsSub (lowerStr userAgent) p))

/-- Model of `Math.ceil(a / b)` for integers, `b > 0`. -/
def jsCeilDiv (a b : Int) : Int := -((-a).fdiv b)

def getRateLimitHeaders (r : RateLimitResult) : List (String × String) :=
  [("X-RateLimit-Limit", intToString r.limit),
   ("X-RateLimit-Remaining", intToString r.remaining),
   ("X-RateLimit-Reset", intToString (jsCeilDiv r.resetAt 1000))]

def mkLog (endpoint : EndpointRow) (user : UserRow) (req : ProxyRequest)
    (status : Int) (paid : Bool) (paymentId : Option String)
    (rateLimited : Bool) : LogRow :=
  { endpointId := endpoint.id
    userId := user.id
    paymentId := paymentId
    responseStatus := status
    isBrowser := isBrowserRequest req.headers
    paid := paid
    rateLimited := rateLimited }

def jsonResult (status : Int) (logs : List LogRow) (payments : List PaymentRow)
    (extraHeaders : List (String × String)) : ProxyResult :=
  { status := status, statusText := ""
    headers := ("content-type", "application/json") :: extraHeaders
    logs := logs, payments := payments }

/-- The per-request pipeline of the route handler. -/
def handleRequest (env : ProxyEnv) (req : ProxyRequest) : ProxyResult :=
  if req.path = [] ∨ req.path.head? = some "" then
    jsonResult 400 [] [] []
  else if req.userSlug = "api" ∨ req.userSlug = "dashboard" ∨ req.userSlug = "login"
      ∨ req.userSlug = "register" ∨ req.userSlug = "_next" then
    jsonResult 404 [] [] []
  else
    match env.user with
    | none => jsonResult 404 [] [] []
    | some user =>
        match env.endpoint with
        | none => jsonResult 404 [] [] []
        | some endpoint =>
            if endpoint.isActive = false then jsonResult 404 [] [] []
            else
              let rl := (checkRateLimit env.rateLimitState env.now
                endpoint.rateLimitPerSec 1000).2
              if rl.allowed = false then
                { status := 429, statusText := ""
                  headers := ("content-type", "application/json")
                    :: ("Retry-After", intToString (jsCeilDiv (rl.resetAt - env.now) 1000))
                    :: getRateLimitHeaders rl
                  logs := [mkLog endpoint user req 429 false none true]
                  payments := [] }
              else
                let paymentPayload := parsePaymentSignature req.headers env.decode
                let payTo := jsOrStr endpoint.paywallPayTo user.defaultPayTo
                if jsTruthy payTo = false then
                  jsonResult 500 [] [] []
                else
                  match paymentPayload with
                  | none =>
                      if isBrowserRequest req.headers then
                        { status := 402, statusText := ""
                          headers := ("Content-Type", "text/html") :: getRateLimitHeaders rl
                          logs := [mkLog endpoint user req 402 false none false]
                          payments := [] }
                      else
                        jsonResult 402 [mkLog endpoint user req 402 false none false] []
                          (getRateLimitHeaders rl)
                  | some payload =>
                      if env.verify.valid = false then
                        jsonResult 402 [mkLog endpoint user req 402 false none false] []
                          (getRateLimitHeaders rl)
                      else
                        let payerAddress :=
                          (jsOrStr (jsOrStr env.verify.payerAddress
                            (extractPayerAddressFromPayload payload)) (some "unknown")).getD
                            "unknown"
                        let payment : PaymentRow :=
                          { id := "payment-1", endpointId := endpoint.id, userId := user.id
                            payerAddress := payerAddress, status := "verified"
                            txHash := none, errorMessage := none }
                        let _authHeaders := buildAuthHeaders endpoint.authType
                          endpoint.authConfig env.secretLookup
                        let _targetUrl := buildTargetUrl endpoint.targetUrl req.path
                          req.searchParams endpoint.authType endpoint.authConfig
                        match env.fetchResult with
                        | none =>
                            let failed := { payment with
                              status := "failed"
                              errorMessage := some env.fetchErrorMessage }
                            { status := 502, statusText := ""
                              headers :=
                                (if strContainsSub ((headerGet req.headers "accept").getD "")
                                    "text/html"
                                 then ("Content-Type", "text/html")
                                 else ("content-type", "application/json"))
                                  :: getRateLimitHeaders rl
                              logs := [mkLog endpoint user req 502 true (some payment.id) false]
                              payments := [failed] }
                        | some up =>
                            let st := env.settle
                            let finalPayment := { payment with
                              status := if st.success then "settled" else "failed"
                              txHash := st.txHash
                              errorMessage := st.error }
                            let respHeaders0 := up.headers.foldl
                              (fun acc p =>
                                if lcStr p.1 = "content-type" then headerSet acc p.1 p.2
                                else acc) []
                            let respHeaders1 := (getRateLimitHeaders rl).foldl
                              (fun acc p => headerSet acc p.1 p.2) respHeaders0
                            let respHeaders2 :=
                              if st.success && jsTruthy st.txHash then
                                headerSet
                                  (headerSet respHeaders1 "X-Payment-Response"
                                    (btoa (settleResultJson st)))
                                  "Payment-Response" (btoa (settleResultJson st))
                              else respHeaders1
                            { status := up.status, statusText := up.statusText
                              headers := respHeaders2
                              logs := [mkLog endpoint user req up.status true
                                (some finalPayment.id) false]
                              payments := [finalPayment] }

/-! ## Shared concrete fixtures for the pipeline claims -/

def userW : UserRow := { id := "u1", slug := "alice", defaultPayTo := some "0xA" }

def endpointW : EndpointRow :=
  { id := "e1", slug := "weather", name := "Weather", description := none
    targetUrl := "https://api.example.com", authType := AuthType.noAuth
    authConfig := none, paywallAmount := 1 / 100, paywallPayTo := some "0xA"
    paywallTestnet := true, customHtml := none, isActive := true
    rateLimitPerSec := 5 }

def payloadW : PaymentPayloadModel := { innerFrom := some "0xB", innerAuthFrom := none }

def reqPlain : ProxyRequest :=
  { method := "GET", userSlug := "alice", path := ["weather"]
    headers := [("accept", "application/json")], searchParams := [] }

def reqPay : ProxyRequest :=
  { method := "GET", userSlug := "alice", path := ["weather"]
    headers := [("accept", "application/json"), ("x-payment-signature", "sig")]
    searchParams := [] }

def verifyOk : VerifyOutcome :=
  { valid := true, invalidReason := none, payerAddress := some "0xB"
    chainId := some 84532 }

def settleOk : SettleOutcome :=
  { success := true, txHash := some "0xT", error := none, chainId := some 84532
    network := some "eip155:84532" }

def upstreamOkW : UpstreamResponse :=
  { status := 200, statusText := "OK"
    headers := [("content-type", "application/json")] }

def envBase : ProxyEnv :=
  { user := some userW, endpoint := some endpointW, rateLimitState := []
    now := 1000, decode := fun _ => some payloadW, verify := verifyOk
    fetchResult := some upstreamOkW
    fetchErrorMessage := "fetch failed", settle := settleOk
    secretLookup := fun _ => none }

def upstream429W : UpstreamResponse :=
  { status := 429, statusText := "Too Many Requests", headers := [] }

/-- Environment whose upstream responds 429. -/
def envUp429 : ProxyEnv :=
  { envBase with fetchResult := some upstream429W }

/-- Environment whose rate-limit window is already full (limit 5). -/
def envDenied : ProxyEnv :=
  { envBase with rateLimitState := [996, 997, 998, 999, 1000] }

def userNoPay : UserRow := { userW with defaultPayTo := none }

def endpointNoPay : EndpointRow := { endpointW with paywallPayTo := some "" }

/-- Environment with no recipient configured anywhere. -/
def envNoPayTo : ProxyEnv :=
  { envBase with user := some userNoPay, endpoint := some endpointNoPay }

/-- No recipient configured and the rate-limit window full. -/
def envNoPayToDenied : ProxyEnv :=
  { envNoPayTo with rateLimitState := [996, 997, 998, 999, 1000] }

/-! ## Claim C3: rate-limit denial auditing -/

/-- Claim C3 counterexample: a paid request whose upstream responds with
status 429 is passed through: the proxy response has status 429, yet a
Payment row exists and the request log has `paid = true` and
`rateLimited = false` — so the claim's predicate "response has status
429" does not imply a rate-limit denial audit record. -/
theorem upstream429_counterexample :
    (handleRequest envUp429 reqPay).status = 429
    ∧ (handleRequest envUp429 reqPay).payments ≠ []
    ∧ ∀ l ∈ (handleRequest envUp429 reqPay).logs,
        l.rateLimited = false ∧ l.paid = true := by
  refine ⟨by decide, by decide, by decide⟩

/-- Claim C3 (amended): for every request DENIED BY THE RATE LIMITER
(rather than every response with status 429, which an upstream can also
produce), the response status is 429, exactly one RequestLog row is
written with `rateLimited = true` and `paid = false`, and no Payment row
is created. -/
theorem rateLimit_denial_audit (env : ProxyEnv) (req : ProxyRequest)
    (user : UserRow) (endpoint : EndpointRow)
    (hpath : ¬ (req.path = [] ∨ req.path.head? = some ""))
    (hsys : ¬ (req.userSlug = "api" ∨ req.userSlug = "dashboard"
      ∨ req.userSlug = "login" ∨ req.userSlug = "register" ∨ req.userSlug = "_next"))
    (hu : env.user = some user)
    (he : env.endpoint = some endpoint)
    (hactive : endpoint.isActive = true)
    (hdenied : (checkRateLimit env.rateLimitState env.now
        endpoint.rateLimitPerSec 1000).2.allowed = false) :
    (handleRequest env req).status = 429
    ∧ (handleRequest env req).logs = [mkLog endpoint user req 429 false none true]
    ∧ (handleRequest env req).payments = [] := by
  unfold handleRequest
  rw [if_neg hpath, if_neg hsys, hu, he]
  simp only [hactive]
  rw [if_neg (by simp)]
  simp only [hdenied, if_pos]
  refine ⟨?_, ?_, ?_⟩ <;> first | rfl | trivial

/-- Witness for `rateLimit_denial_audit`: with five stored arrivals inside
the window and limit 5, the call is denied and audited. -/
theorem rateLimit_denial_audit_witness :
    (handleRequest envDenied reqPlain).status = 429
    ∧ (handleRequest envDenied reqPlain).logs
        = [mkLog endpointW userW reqPlain 429 false none true]
    ∧ (handleRequest envDenied reqPlain).payments = [] :=
  rateLimit_denial_audit envDenied reqPlain userW endpointW (by decide) (by decide)
    (by rfl) (by rfl) (by decide) (by decide)

/-! ## Claim C8: missing recipient address -/

/-- Claim C8 counterexample: the recipient check sits AFTER rate limiting
in the handler, so a rate-limited request to an endpoint with no
recipient configured anywhere gets 429, not the configuration-error
500 — the claim's "regardless of the rate-limit state" fails. -/
theorem missing_payTo_rateLimited_counterexample :
    (handleRequest envNoPayToDenied reqPlain).status = 429
    ∧ (handleRequest envNoPayToDenied reqPlain).status ≠ 500 := by
  refine ⟨by decide, by decide⟩

/-- Claim C8 (amended): for every request that resolves to an active
endpoint, PASSES THE RATE LIMITER, and has no recipient address on the
endpoint nor a tenant default (JavaScript-falsy both), the response is
the configuration-error 500 — regardless of whether a payment header is
present (the check precedes the payment branch). -/
theorem missing_payTo_500 (env : ProxyEnv) (req : ProxyRequest)
    (user : UserRow) (endpoint : EndpointRow)
    (hpath : ¬ (req.path = [] ∨ req.path.head? = some ""))
    (hsys : ¬ (req.userSlug = "api" ∨ req.userSlug = "dashboard"
      ∨ req.userSlug = "login" ∨ req.userSlug = "register" ∨ req.userSlug = "_next"))
    (hu : env.user = some user)
    (he : env.endpoint = some endpoint)
    (hactive : endpoint.isActive = true)
    (hallowed : (checkRateLimit env.rateLimitState env.now
        endpoint.rateLimitPerSec 1000).2.allowed = true)
    (hpayto : jsTruthy (jsOrStr endpoint.paywallPayTo user.defaultPayTo) = false) :
    (handleRequest env req).status = 500
    ∧ (handleRequest env req).logs = []
    ∧ (handleRequest env req).payments = [] := by
  unfold handleRequest
  rw [if_neg hpath, if_neg hsys, hu, he]
  simp only [hactive]
  rw [if_neg (by simp)]
  rw [if_neg (by simp [hallowed])]
  simp only [hpayto, if_pos]
  exact ⟨rfl, rfl, rfl⟩

/-- Witness for `missing_payTo_500`: no payment header present, and with
a payment header present, both give 500 (the endpoint recipient is the
falsy empty string and the tenant default is absent). -/
theorem missing_payTo_500_witness :
    (handleRequest envNoPayTo reqPay).status = 500
    ∧ (handleRequest envNoPayTo reqPlain).status = 500 :=
  ⟨(missing_payTo_500 envNoPayTo reqPay userNoPay endpointNoPay
      (by decide) (by decide) (by rfl) (by rfl) (by decide) (by decide) (by decide)).1,
   (missing_payTo_500 envNoPayTo reqPlain userNoPay endpointNoPay
      (by decide) (by decide) (by rfl) (by rfl) (by decide) (by decide) (by decide)).1⟩

/-! ## Claim C6: shape of the response built from an upstream response -/

/-- The spec-side description of response-header forwarding: the upstream
`Content-Type` (if any). -/
def ctForward (up : UpstreamResponse) : List (String × String) :=
  match up.headers.find? (fun p => p.1 = "content-type") with
  | some p => [("content-type", p.2)]
  | none => []

/-- The rate-limit headers as they end up stored (lowercased names). -/
def rlHeadersLC (rl : RateLimitResult) : List (String × String) :=
  [("x-ratelimit-limit", intToString rl.limit),
   ("x-ratelimit-remaining", intToString rl.remaining),
   ("x-ratelimit-reset", intToString (jsCeilDiv rl.resetAt 1000))]

/-- The payment-response headers: present exactly when settlement
succeeded AND returned a truthy transaction hash. -/
def payHeaders (st : SettleOutcome) : List (String × String) :=
  if st.success && jsTruthy st.txHash then
    [("x-payment-response", btoa (settleResultJson st)),
     ("payment-response", btoa (settleResultJson st))]
  else []

theorem headerFoldCT_skip (L : List (String × String)) (acc : List (String × String))
    (h : ∀ p ∈ L, ¬ (lcStr p.1 = "content-type")) :
    L.foldl (fun acc p => if lcStr p.1 = "content-type" then headerSet acc p.1 p.2 else acc)
      acc = acc := by
  induction L generalizing acc with
  | nil => rfl
  | cons q L ih =>
      rw [List.foldl_cons, if_neg (h q (List.mem_cons_self q L))]
      exact ih acc (fun p hp => h p (List.mem_cons_of_mem q hp))

/-- With unique, lowercase upstream header names, the content-type fold
yields exactly the forwarded content-type entry. -/
theorem headerFoldCT (L : List (String × String))
    (hnd : (L.map Prod.fst).Nodup)
    (hlc : ∀ p ∈ L, lcStr p.1 = p.1) :
    L.foldl (fun acc p => if lcStr p.1 = "content-type" then headerSet acc p.1 p.2 else acc)
      [] =
      (match L.find? (fun p => p.1 = "content-type") with
       | some p => [("content-type", p.2)]
       | none => []) := by
  induction L with
  | nil => rfl
  | cons q L ih =>
      rw [List.foldl_cons]
      by_cases hq : lcStr q.1 = "content-type"
      · have hq1 : q.1 = "content-type" := by rw [← hlc q (List.mem_cons_self q L), hq]
        rw [if_pos hq]
        have hset : headerSet [] q.1 q.2 = [("content-type", q.2)] := by
          unfold headerSet
          simp [hq]
        rw [hset]
        have hnone : ∀ p ∈ L, ¬ (lcStr p.1 = "content-type") := by
          intro p hp hcp
          have hp1 : p.1 = "content-type" := by
            rw [← hlc p (List.mem_cons_of_mem q hp), hcp]
          have hqn : q.1 ∉ L.map Prod.fst := (List.nodup_cons.1 hnd).1
          exact hqn (by rw [hq1, ← hp1]; exact List.mem_map_of_mem Prod.fst hp)
        rw [headerFoldCT_skip L _ hnone]
        rw [List.find?_cons_of_pos _ (by simp [hq1])]
      · rw [if_neg hq]
        have hq1 : ¬ (q.1 = "content-type") := by
          intro h1
          apply hq
          rw [h1]
          decide
        rw [ih (List.nodup_cons.1 hnd).2 (fun p hp => hlc p (List.mem_cons_of_mem q hp))]
        rw [List.find?_cons_of_neg _ (by simp [hq1])]

/-- Setting the rate-limit and payment headers on top of the forwarded
content-type appends them in order. -/
theorem respHeaders_eq (acc : List (String × String))
    (hacc : acc = [] ∨ ∃ ct, acc = [("content-type", ct)])
    (rl : RateLimitResult) (st : SettleOutcome) :
    (if st.success && jsTruthy st.txHash then
      headerSet
        (headerSet ((getRateLimitHeaders rl).foldl
          (fun a p => headerSet a p.1 p.2) acc) "X-Payment-Response"
          (btoa (settleResultJson st)))
        "Payment-Response" (btoa (settleResultJson st))
    else (getRateLimitHeaders rl).foldl (fun a p => headerSet a p.1 p.2) acc)
      = acc ++ rlHeadersLC rl ++ payHeaders st := by
  have e1 : lcStr "X-RateLimit-Limit" = "x-ratelimit-limit" := by decide
  have e2 : lcStr "X-RateLimit-Remaining" = "x-ratelimit-remaining" := by decide
  have e3 : lcStr "X-RateLimit-Reset" = "x-ratelimit-reset" := by decide
  have e4 : lcStr "X-Payment-Response" = "x-payment-response" := by decide
  have e5 : lcStr "Payment-Response" = "payment-response" := by decide
  by_cases hs : st.success && jsTruthy st.txHash
  · rw [if_pos hs]
    unfold payHeaders
    rw [if_pos hs]
    rcases hacc with h | ⟨ct, h⟩ <;> subst h <;>
      simp +decide [getRateLimitHeaders, headerSet, rlHeadersLC, e1, e2, e3, e4, e5]
  · rw [if_neg hs]
    unfold payHeaders
    rw [if_neg hs]
    rcases hacc with h | ⟨ct, h⟩ <;> subst h <;>
      simp +decide [getRateLimitHeaders, headerSet, rlHeadersLC, e1, e2, e3]

set_option maxHeartbeats 1000000 in
/-- Claim C6 (amended): for every response produced from an upstream
response, the client response carries the upstream status and status text
verbatim, and its headers are exactly: the upstream `Content-Type` (the
only upstream header forwarded), the rate-limit headers, and — if and
only if settlement succeeded AND returned a truthy transaction hash —
`X-Payment-Response` and `Payment-Response` valued
`base64(JSON(settlementResponse))`. -/
theorem upstream_response_spec (env : ProxyEnv) (req : ProxyRequest)
    (user : UserRow) (endpoint : EndpointRow) (up : UpstreamResponse)
    (payload : PaymentPayloadModel)
    (hpath : ¬ (req.path = [] ∨ req.path.head? = some ""))
    (hsys : ¬ (req.userSlug = "api" ∨ req.userSlug = "dashboard"
      ∨ req.userSlug = "login" ∨ req.userSlug = "register" ∨ req.userSlug = "_next"))
    (hu : env.user = some user)
    (he : env.endpoint = some endpoint)
    (hactive : endpoint.isActive = true)
    (hallowed : (checkRateLimit env.rateLimitState env.now
        endpoint.rateLimitPerSec 1000).2.allowed = true)
    (hpayto : jsTruthy (jsOrStr endpoint.paywallPayTo user.defaultPayTo) = true)
    (hsig : parsePaymentSignature req.headers env.decode = some payload)
    (hvalid : env.verify.valid = true)
    (hfetch : env.fetchResult = some up)
    (hnd : (up.headers.map Prod.fst).Nodup)
    (hlc : ∀ p ∈ up.headers, lcStr p.1 = p.1) :
    (handleRequest env req).status = up.status
    ∧ (handleRequest env req).statusText = up.statusText
    ∧ (handleRequest env req).headers =
        ctForward up
          ++ rlHeadersLC (checkRateLimit env.rateLimitState env.now
              endpoint.rateLimitPerSec 1000).2
          ++ payHeaders env.settle := by
  unfold handleRequest
  rw [if_neg hpath, if_neg hsys, hu, he]
  simp only [hactive]
  rw [if_neg (by simp)]
  rw [if_neg (by simp [hallowed])]
  rw [if_neg (by simp [hpayto])]
  rw [hsig]
  dsimp only
  rw [if_neg (by simp [hvalid]), hfetch]
  dsimp only
  refine ⟨rfl, rfl, ?_⟩
  rw [headerFoldCT up.headers hnd hlc]
  have hacc : (match up.headers.find? (fun p => p.1 = "content-type") with
       | some p => [("content-type", p.2)]
       | none => ([] : List (String × String))) = ([] : List (String × String))
      ∨ ∃ ct, (match up.headers.find? (fun p => p.1 = "content-type") with
       | some p => [("content-type", p.2)]
       | none => ([] : List (String × String))) = [("content-type", ct)] := by
    rcases hfind : up.headers.find? (fun p => p.1 = "content-type") with _ | p
    · exact Or.inl (by rw [hfind])
    · exact Or.inr ⟨p.2, by rw [hfind]⟩
  exact respHeaders_eq _ hacc _ env.settle

/-- Witness for `upstream_response_spec` on the happy path: a settled
payment, upstream 200 `OK` with a JSON content type. -/
theorem upstream_response_spec_witness :
    (handleRequest envBase reqPay).status = 200
    ∧ (handleRequest envBase reqPay).statusText = "OK"
    ∧ (handleRequest envBase reqPay).headers =
        ctForward upstreamOkW
          ++ rlHeadersLC (checkRateLimit envBase.rateLimitState envBase.now
              endpointW.rateLimitPerSec 1000).2
          ++ payHeaders envBase.settle :=
  upstream_response_spec envBase reqPay userW endpointW upstreamOkW payloadW
    (by decide) (by decide) (by rfl) (by rfl) (by decide) (by decide) (by decide)
    (by decide) (by decide) (by rfl) (by decide) (by decide)

def settleNoTx : SettleOutcome :=
  { success := true, txHash := none, error := none, chainId := some 84532
    network := some "eip155:84532" }

def envNoTx : ProxyEnv := { envBase with settle := settleNoTx }

/-- Claim C6 counterexample: when settlement succeeds but the facilitator
returns no transaction hash (`transaction` absent in `SettleResponse` —
`settlePayment` then yields `success: true` with `txHash: undefined`),
the handler's `settleResult.success && settleResult.txHash` guard skips
both payment headers although settlement succeeded: the claimed "if and
only if settlement succeeded" fails. -/
theorem settled_header_counterexample :
    envNoTx.settle.success = true
    ∧ headerGet (handleRequest envNoTx reqPay).headers "X-Payment-Response" = none
    ∧ headerGet (handleRequest envNoTx reqPay).headers "Payment-Response" = none := by
  refine ⟨by decide, by decide, by decide⟩

end X402
